import Mathlib

/-!
# Secure Cloud Storage — client-side cryptography: shallow embedding

A shallow embedding of the client-side cryptography module, the API client
and the crypto-relevant parts of the application controller of the
secure-cloud-storage repository, together with proofs about the claims of
its specification.

Byte sequences are modelled as `List Nat` with values below 256 where the
source guarantees a `Uint8Array`.  JavaScript strings are modelled as Lean
`String`.  The platform Web Crypto primitives, such as SHA-256, PBKDF2 and
AES-GCM, are not part of the repository; they are modelled abstractly by a
`Primitives` bundle, and the properties the specification attributes to
them, such as AEAD round-trip and tag rejection, enter theorems as
hypotheses at the instances used.
-/

namespace SCS

/-! ## JavaScript string primitives used by the crypto module -/

/-- The JavaScript whitespace characters relevant to `parseInt` and
`String.prototype.trim`; modelled as the common set: tab, LF, VT, FF, CR,
space, NBSP and the BOM. -/
def jsWhitespaceChars : List Char :=
  [' ', '\t', '\n', '\r', Char.ofNat 0x0B, Char.ofNat 0x0C,
   Char.ofNat 0xA0, Char.ofNat 0xFEFF]

/-- Value of a hexadecimal digit character, `none` for a non-digit. -/
def hexDigitVal? (c : Char) : Option Nat :=
  if 48 ≤ c.toNat ∧ c.toNat ≤ 57 then some (c.toNat - 48)
  else if 97 ≤ c.toNat ∧ c.toNat ≤ 102 then some (c.toNat - 87)
  else if 65 ≤ c.toNat ∧ c.toNat ≤ 70 then some (c.toNat - 55)
  else none

/-- Whether a character is JavaScript whitespace. -/
def isJsWs (c : Char) : Bool := decide (c ∈ jsWhitespaceChars)

/-- Drop leading JavaScript whitespace, as `parseInt` does. -/
def skipJsWs : List Char → List Char
  | [] => []
  | c :: rest => if isJsWs c then skipJsWs rest else c :: rest

/-- Optional sign handling of `parseInt`: returns whether the number is
negated, and the remaining characters. -/
def parseSignJs (l : List Char) : Bool × List Char :=
  match l with
  | c :: rest =>
      if c = '-' then (true, rest)
      else if c = '+' then (false, rest)
      else (false, l)
  | [] => (false, [])

/-- With radix 16, `parseInt` strips a leading `0x` or `0X`. -/
def strip0xJs (l : List Char) : List Char :=
  match l with
  | c1 :: c2 :: rest => if c1 = '0' ∧ (c2 = 'x' ∨ c2 = 'X') then rest else l
  | _ => l

/-- Accumulate the longest run of leading hexadecimal digits:
returns the accumulated value and the number of digits consumed. -/
def hexDigitsRun : List Char → Nat → Nat → Nat × Nat
  | [], acc, cnt => (acc, cnt)
  | c :: rest, acc, cnt =>
      match hexDigitVal? c with
      | some v => hexDigitsRun rest (16 * acc + v) (cnt + 1)
      | none => (acc, cnt)

/-- JavaScript `parseInt(s, 16)` on a list of characters: skip whitespace,
optional sign, optional `0x`, then the longest run of hex digits; `none`
models the `NaN` result when no digit is consumed. -/
def parseInt16 (l : List Char) : Option Int :=
  let l1 := skipJsWs l
  let p := parseSignJs l1
  let l3 := strip0xJs p.2
  let r := hexDigitsRun l3 0 0
  if r.2 = 0 then none else some (if p.1 then -(r.1 : Int) else (r.1 : Int))

/-- The coercion a `Uint8Array` element store applies to a JavaScript
number: `NaN` becomes 0, and integers are reduced modulo 256. -/
def toUint8 : Option Int → Nat
  | none => 0
  | some z => (z % 256).toNat

/-- `hexToBytes` (crypto module): `new Uint8Array(hex.length / 2)` (the
length is floored), then for each even index the two-character substring is
parsed with `parseInt(_, 16)` and stored; on an odd-length input the final
one-character group's store is out of bounds and silently discarded, so
exactly `hex.length / 2` bytes result.  Modelled by structural recursion on
successive two-character groups. -/
def hexToBytesAux : List Char → List Nat
  | [] => []
  | [_] => []
  | c1 :: c2 :: rest => toUint8 (parseInt16 [c1, c2]) :: hexToBytesAux rest

/-- `hexToBytes` on a JavaScript string. -/
def hexToBytes (hex : String) : List Nat :=
  hexToBytesAux hex.data

/-- JavaScript `Number.prototype.toString(16)` on a natural number:
minimal-length lowercase hexadecimal (fuel-based structural recursion). -/
def natToHexAux : Nat → Nat → List Char
  | 0, _ => []
  | fuel + 1, n =>
      if n < 16 then [Nat.digitChar n]
      else natToHexAux fuel (n / 16) ++ [Nat.digitChar (n % 16)]

/-- JavaScript `b.toString(16)`. -/
def jsToString16 (n : Nat) : List Char := natToHexAux (n + 1) n

/-- JavaScript `.padStart(2, '0')`. -/
def padStart2 (l : List Char) : List Char :=
  List.replicate (2 - l.length) '0' ++ l

/-- One byte rendered as two lowercase hex characters,
`b.toString(16).padStart(2, '0')`. -/
def byteToHex (b : Nat) : List Char := padStart2 (jsToString16 b)

/-- `bufferToHex` (crypto module), also the hex rendering inside
`generateRandomHex`: each byte becomes two lowercase hex characters,
joined without separators. -/
def bytesToHex (bs : List Nat) : String :=
  String.mk ((bs.map byteToHex).flatten)

/-- `generateRandomHex` (crypto module): fills a fresh `Uint8Array` from
the CSPRNG and hex-encodes it.  The CSPRNG draw is explicit input here:
`randomBytes` is the content `crypto.getRandomValues` produced. -/
def generateRandomHex (randomBytes : List Nat) : String :=
  bytesToHex randomBytes

/-- UTF-8 encoding of one character (`TextEncoder`). -/
def utf8Char (c : Char) : List Nat :=
  let n := c.toNat
  if n < 0x80 then [n]
  else if n < 0x800 then [0xC0 + n / 0x40, 0x80 + n % 0x40]
  else if n < 0x10000 then
    [0xE0 + n / 0x1000, 0x80 + (n / 0x40) % 0x40, 0x80 + n % 0x40]
  else
    [0xF0 + n / 0x40000, 0x80 + (n / 0x1000) % 0x40,
     0x80 + (n / 0x40) % 0x40, 0x80 + n % 0x40]

/-- `stringToBytes` (crypto module): `new TextEncoder().encode(str)`. -/
def stringToBytes (s : String) : List Nat :=
  s.data.flatMap utf8Char

/-- JavaScript `String.prototype.toLowerCase`, modelled on the ASCII
range. -/
def jsToLowerCase (s : String) : String :=
  String.mk (s.data.map Char.toLower)

/-- JavaScript `String.prototype.trim`. -/
def jsTrim (s : String) : String :=
  String.mk (((s.data.dropWhile isJsWs).reverse.dropWhile isJsWs).reverse)

/-! ## Basic lemmas about the hex codec -/

theorem toUint8_lt (x : Option Int) : toUint8 x < 256 := by
  cases x with
  | none => simp [toUint8]
  | some z =>
      simp only [toUint8]
      have h1 : 0 ≤ z % 256 := Int.emod_nonneg z (by norm_num)
      have h2 : z % 256 < 256 := Int.emod_lt_of_pos z (by norm_num)
      omega

theorem hexToBytesAux_length : ∀ l : List Char,
    (hexToBytesAux l).length = l.length / 2
  | [] => rfl
  | [_] => by simp [hexToBytesAux]
  | _ :: _ :: rest => by
      simp only [hexToBytesAux, List.length_cons]
      rw [hexToBytesAux_length rest]
      omega

theorem hexToBytes_length (s : String) :
    (hexToBytes s).length = s.length / 2 := by
  show (hexToBytesAux s.data).length = s.data.length / 2
  exact hexToBytesAux_length s.data

theorem hexToBytesAux_lt : ∀ l : List Char, ∀ b ∈ hexToBytesAux l, b < 256
  | [] => by simp [hexToBytesAux]
  | [_] => by simp [hexToBytesAux]
  | c1 :: c2 :: rest => by
      intro b hb
      simp only [hexToBytesAux, List.mem_cons] at hb
      rcases hb with h | h
      · exact h ▸ toUint8_lt _
      · exact hexToBytesAux_lt rest b h

theorem toUint8_some_small (n : Nat) (h : n < 256) :
    toUint8 (some (n : Int)) = n := by
  simp only [toUint8]
  rw [Int.emod_eq_of_lt (by positivity) (by exact_mod_cast h)]
  simp

theorem hexDigitVal_digitChar : ∀ v < 16, hexDigitVal? (Nat.digitChar v) = some v := by
  decide

theorem digitChar_not_special : ∀ v < 16,
    isJsWs (Nat.digitChar v) = false ∧ Nat.digitChar v ≠ '-' ∧
    Nat.digitChar v ≠ '+' ∧ Nat.digitChar v ≠ 'x' ∧ Nat.digitChar v ≠ 'X' := by
  decide

theorem ws_not_hexDigit : ∀ c ∈ jsWhitespaceChars, hexDigitVal? c = none := by
  decide

theorem hexDigit_not_ws {c : Char} {v : Nat} (h : hexDigitVal? c = some v) :
    isJsWs c = false := by
  rcases hmem : isJsWs c with _ | _
  · rfl
  · exact absurd (ws_not_hexDigit c (of_decide_eq_true hmem)) (by simp [h])

theorem hexDigit_not_sign {c : Char} {v : Nat} (h : hexDigitVal? c = some v) :
    c ≠ '-' ∧ c ≠ '+' := by
  constructor <;> rintro rfl <;> simp [hexDigitVal?] at h

/-- `parseInt(_, 16)` on a two-character group of genuine hex digits (not
of the shape `0x`) yields the value of the pair. -/
theorem parseInt16_hexPair {c1 c2 : Char} {v w : Nat}
    (h1 : hexDigitVal? c1 = some v) (h2 : hexDigitVal? c2 = some w)
    (hx : ¬(c1 = '0' ∧ (c2 = 'x' ∨ c2 = 'X'))) :
    parseInt16 [c1, c2] = some ((16 * v + w : Nat) : Int) := by
  have hws1 := hexDigit_not_ws h1
  have hsg1 := hexDigit_not_sign h1
  simp only [parseInt16, skipJsWs, hws1, if_false, Bool.false_eq_true]
  simp only [parseSignJs, if_neg hsg1.1, if_neg hsg1.2]
  simp only [strip0xJs, if_neg hx]
  simp only [hexDigitsRun, h1, h2]
  norm_num

/-- The two-character hex rendering of a byte. -/
theorem byteToHex_eq (b : Nat) (hb : b < 256) :
    byteToHex b = [Nat.digitChar (b / 16), Nat.digitChar (b % 16)] := by
  by_cases h16 : b < 16
  · have hd : b / 16 = 0 := Nat.div_eq_of_lt h16
    have hm : b % 16 = b := Nat.mod_eq_of_lt h16
    simp [byteToHex, jsToString16, natToHexAux, h16, padStart2, hd, hm,
      Nat.digitChar]
  · have hfuel : 0 < b := by omega
    obtain ⟨m, rfl⟩ : ∃ m, b = m + 1 := ⟨b - 1, by omega⟩
    have hdiv : (m + 1) / 16 < 16 := by omega
    simp only [byteToHex, jsToString16, natToHexAux, if_neg h16]
    rw [if_pos hdiv]
    simp [padStart2]

/-- Round-trip of the hex codec on byte lists: `hexToBytes (bytesToHex bs)`
recovers `bs` when every entry is a byte. -/
theorem hexToBytesAux_flatten : ∀ bs : List Nat, (∀ b ∈ bs, b < 256) →
    hexToBytesAux ((bs.map byteToHex).flatten) = bs
  | [], _ => rfl
  | b :: rest, h => by
      have hb : b < 256 := h b (List.mem_cons_self b rest)
      have hrest : ∀ x ∈ rest, x < 256 := fun x hx => h x (List.mem_cons_of_mem b hx)
      have hdc : b / 16 < 16 := by omega
      have hmc : b % 16 < 16 := by omega
      have e1 := hexDigitVal_digitChar (b / 16) hdc
      have e2 := hexDigitVal_digitChar (b % 16) hmc
      have hnx := digitChar_not_special (b % 16) hmc
      simp only [List.map_cons, List.flatten_cons, byteToHex_eq b hb]
      show hexToBytesAux
        (Nat.digitChar (b / 16) :: Nat.digitChar (b % 16) ::
          (rest.map byteToHex).flatten) = b :: rest
      rw [hexToBytesAux]
      rw [parseInt16_hexPair e1 e2 (by
        rintro ⟨-, h | h⟩
        · exact hnx.2.2.2.1 h
        · exact hnx.2.2.2.2 h)]
      rw [toUint8_some_small _ (by omega)]
      rw [hexToBytesAux_flatten rest hrest]
      congr 1
      omega

theorem hexToBytes_bytesToHex (bs : List Nat) (h : ∀ b ∈ bs, b < 256) :
    hexToBytes (bytesToHex bs) = bs := by
  show hexToBytesAux (bytesToHex bs).data = bs
  show hexToBytesAux ((bs.map byteToHex).flatten) = bs
  exact hexToBytesAux_flatten bs h

/-- Hex encoding is injective on byte lists. -/
theorem bytesToHex_inj {a b : List Nat} (ha : ∀ x ∈ a, x < 256)
    (hb : ∀ x ∈ b, x < 256) (h : bytesToHex a = bytesToHex b) : a = b := by
  have := congrArg hexToBytes h
  rwa [hexToBytes_bytesToHex a ha, hexToBytes_bytesToHex b hb] at this

/-! ## The platform cryptographic primitives

The Web Crypto API (`crypto.subtle`, `crypto.getRandomValues`) is external
to the repository.  Its deterministic primitives are modelled as an
abstract bundle of functions over a key type `K` (the opaque `CryptoKey`).
Modelled from the spec: SHA-256 is the 256-bit content digest of §4.1;
`pbkdf2bits`/`pbkdf2key` are the PBKDF2 derivations (`deriveBits` and
`deriveKey` flavours) with an explicit iteration count; `aeadEnc`/`aeadDec`
are AES-256-GCM with the authentication tag appended to the ciphertext,
decryption returning `none` when the tag does not verify.  Properties the
specification attributes to these primitives (round-trip, tag rejection,
tag length) appear as hypotheses of the theorems below, at the instances
where they are used. -/
structure Primitives (K : Type) where
  sha256 : List Nat → List Nat
  pbkdf2bits : String → List Nat → Nat → List Nat
  pbkdf2key : String → List Nat → Nat → K
  aeadEnc : K → List Nat → List Nat → List Nat
  aeadDec : K → List Nat → List Nat → Option (List Nat)

/-! ## Crypto module (`window.SCSCrypto`) -/

def PBKDF2_ITERATIONS : Nat := 100000

def SALT_BYTES : Nat := 16

def IV_BYTES : Nat := 12

variable {K : Type}

/-- `deriveKey`: PBKDF2 (SHA-256, 100000 iterations) from password and
salt to an AES-256-GCM key.  No validation of the salt is performed. -/
def deriveKey (P : Primitives K) (password : String) (salt : List Nat) : K :=
  P.pbkdf2key password salt PBKDF2_ITERATIONS

/-- `hashPassword`: PBKDF2 `deriveBits` (256 bits) from password and salt,
rendered as hex. -/
def hashPassword (P : Primitives K) (password : String) (salt : List Nat) :
    String :=
  bytesToHex (P.pbkdf2bits password salt PBKDF2_ITERATIONS)

/-- `hashFile`: SHA-256 content digest, rendered as hex. -/
def hashFile (P : Primitives K) (data : List Nat) : String :=
  bytesToHex (P.sha256 data)

/-- `hashEmail`: SHA-256 of the lower-cased, trimmed email, as hex. -/
def hashEmail (P : Primitives K) (email : String) : String :=
  bytesToHex (P.sha256 (stringToBytes (jsTrim (jsToLowerCase email))))

/-- The Encrypted Envelope returned by `encryptFile`: exactly the four
fields `ciphertext` (tag appended, no separate tag field), `iv` (hex),
`salt` (hex) and `fileHash` (hex). -/
structure Envelope where
  ciphertext : List Nat
  iv : String
  salt : String
  fileHash : String
deriving DecidableEq, Repr

/-- `encryptFile`: generates a fresh 16-byte salt and 12-byte IV from the
CSPRNG (the draws `saltRand` and `ivRand` are the two
`crypto.getRandomValues` outputs, made explicit), hashes the plaintext,
derives the key and encrypts with AES-256-GCM. -/
def encryptFile (P : Primitives K) (data : List Nat) (password : String)
    (saltRand ivRand : List Nat) : Envelope :=
  let salt := hexToBytes (generateRandomHex saltRand)
  let iv := hexToBytes (generateRandomHex ivRand)
  let fileHash := hashFile P data
  let key := deriveKey P password salt
  let ciphertext := P.aeadEnc key iv data
  { ciphertext := ciphertext
    iv := bytesToHex iv
    salt := bytesToHex salt
    fileHash := fileHash }

/-- `decryptFile`: decodes the hex IV and salt, derives the key and
attempts AES-256-GCM decryption; `none` models the thrown
`OperationError` when the authentication tag fails, and no plaintext,
partial or otherwise, is produced in that case. -/
def decryptFile (P : Primitives K) (ciphertext : List Nat)
    (ivHex saltHex password : String) : Option (List Nat) :=
  let iv := hexToBytes ivHex
  let salt := hexToBytes saltHex
  let key := deriveKey P password salt
  P.aeadDec key iv ciphertext

/-! ## Application controller (crypto-relevant flows) -/

/-- The email normalisation `email.toLowerCase().trim()` repeated in the
register, login and decrypt handlers. -/
def jsNormalizeEmail (email : String) : String :=
  jsTrim (jsToLowerCase email)

/-- The deterministic authentication salt
`new Uint8Array(sha256(utf8(email.toLowerCase().trim()))).slice(0, 16)`. -/
def authSaltOf (P : Primitives K) (email : String) : List Nat :=
  (P.sha256 (stringToBytes (jsNormalizeEmail email))).take 16

/-- Auth salt as computed by the register handler: the form email is first
`.trim()`-med, then the salt is derived. -/
def registerAuthSalt (P : Primitives K) (formEmail : String) : List Nat :=
  authSaltOf P (jsTrim formEmail)

/-- Auth salt as computed by the login handler. -/
def loginAuthSalt (P : Primitives K) (formEmail : String) : List Nat :=
  authSaltOf P (jsTrim formEmail)

/-- Auth salt as recomputed by `performDecrypt` from the session email. -/
def decryptAuthSalt (P : Primitives K) (currentEmail : String) : List Nat :=
  authSaltOf P currentEmail

/-- Session state saved by `saveSession`. -/
structure Session where
  email : String
  passwordHash : String
  salt : String
deriving DecidableEq, Repr

/-- The register flow: trims the form email, derives the deterministic
auth salt, hashes the password client-side and auto-logs-in by saving the
session. -/
def registerFlowSession (P : Primitives K) (formEmail password : String) :
    Session :=
  let email := jsTrim formEmail
  let authSalt := registerAuthSalt P formEmail
  { email := email
    passwordHash := hashPassword P password authSalt
    salt := bytesToHex authSalt }

/-- The login flow: recomputes the deterministic auth salt and password
hash; the stored session salt is the one the server returns. -/
def loginFlowSession (P : Primitives K)
    (formEmail password serverSalt : String) : Session :=
  { email := jsTrim formEmail
    passwordHash := hashPassword P password (loginAuthSalt P formEmail)
    salt := serverSalt }

/-- The JSON body of `POST /api/register`:
`{ email, password_hash, salt }`. -/
structure RegisterPayload where
  email : String
  password_hash : String
  salt : String
deriving DecidableEq, Repr

/-- The JSON body of `POST /api/login`: `{ email, password_hash }`. -/
structure LoginPayload where
  email : String
  password_hash : String
deriving DecidableEq, Repr

/-- The register handler's request to the backend. -/
def registerRequest (P : Primitives K) (formEmail password : String) :
    RegisterPayload :=
  let email := jsTrim formEmail
  let authSalt := registerAuthSalt P formEmail
  { email := email
    password_hash := hashPassword P password authSalt
    salt := bytesToHex authSalt }

/-- The login handler's request to the backend. -/
def loginRequest (P : Primitives K) (formEmail password : String) :
    LoginPayload :=
  { email := jsTrim formEmail
    password_hash := hashPassword P password (loginAuthSalt P formEmail) }

/-- The metadata record stored alongside the ciphertext at upload. -/
structure FileMetadata where
  original_name : String
  original_size : Nat
  iv : String
  salt : String
  file_hash : String
deriving DecidableEq, Repr

/-- `handleFileUpload` (crypto-relevant core): encrypts the file with the
session's stored password hash as the password and builds the metadata
record from the envelope. -/
def handleFileUpload (P : Primitives K) (s : Session) (name : String)
    (data : List Nat) (saltRand ivRand : List Nat) :
    Envelope × FileMetadata :=
  let encrypted := encryptFile P data s.passwordHash saltRand ivRand
  (encrypted,
    { original_name := name
      original_size := data.length
      iv := encrypted.iv
      salt := encrypted.salt
      file_hash := encrypted.fileHash })

/-- Outcome of `performDecrypt`: success with the plaintext, the
`OperationError` of a failed authentication tag, or the thrown
`INTEGRITY_FAIL`. -/
inductive DecryptOutcome
  | success (plaintext : List Nat)
  | authenticationFailure
  | integrityFailure
deriving DecidableEq, Repr

/-- `performDecrypt` (crypto-relevant core): recomputes the auth salt from
the session email and the auth hash from the entered password, decrypts
with that hash as the password, then recomputes the SHA-256 of the
plaintext and compares it with the stored `file_hash`; a mismatch throws
`INTEGRITY_FAIL` and the plaintext is not delivered. -/
def performDecrypt (P : Primitives K) (currentEmail password : String)
    (meta : FileMetadata) (ciphertext : List Nat) : DecryptOutcome :=
  let authSalt := decryptAuthSalt P currentEmail
  let enteredHash := hashPassword P password authSalt
  match decryptFile P ciphertext meta.iv meta.salt enteredHash with
  | none => .authenticationFailure
  | some decrypted =>
      let computedHash := hashFile P decrypted
      if computedHash ≠ meta.file_hash then .integrityFailure
      else .success decrypted

/-- The error title shown by the download modal's catch branch:
`INTEGRITY_FAIL` and the cipher's `OperationError` are reported
distinctly. -/
def modalErrorTitle : DecryptOutcome → Option String
  | .success _ => none
  | .authenticationFailure => some "Decryption Failed"
  | .integrityFailure => some "Integrity Check Failed"

/-- Flip bit `k` of the byte at index `i` of a byte sequence. -/
def flipBitAt (i k : Nat) (c : List Nat) : List Nat :=
  c.set i ((c.getD i 0) ^^^ (1 <<< k))

/-! ## A small concrete instantiation of the primitives

Used only to evaluate the theorems at concrete inputs: a toy digest, a toy
key derivation and a toy authenticated cipher with a 16-byte appended tag.
These are stand-ins for the platform primitives in witnesses; they are not
models of the real algorithms. -/

/-- Toy 16-byte authentication tag: a checksum over key, IV and body. -/
def toyTag (key iv body : List Nat) : List Nat :=
  List.replicate 15 0 ++ [(key.sum + 2 * iv.sum + 3 * body.sum) % 256]

/-- Toy 32-byte digest. -/
def toySha (p : List Nat) : List Nat :=
  List.replicate 31 0 ++ [(p.sum + p.length + 7) % 256]

/-- Toy primitives bundle over `K := List Nat`. -/
def toyP : Primitives (List Nat) where
  sha256 := toySha
  pbkdf2bits := fun pw salt iter => stringToBytes pw ++ salt ++ [iter % 256]
  pbkdf2key := fun pw salt iter => stringToBytes pw ++ salt ++ [(iter + 1) % 256]
  aeadEnc := fun k iv p => p ++ toyTag k iv p
  aeadDec := fun k iv c =>
    let body := c.take (c.length - 16)
    if c = body ++ toyTag k iv body then some body else none

/-! ## Claims -/

/-- Fields of `encryptFile` after decoding the CSPRNG draws. -/
theorem encryptFile_eq {K : Type} (P : Primitives K) (data : List Nat)
    (password : String) (saltRand ivRand : List Nat)
    (hs : ∀ b ∈ saltRand, b < 256) (hi : ∀ b ∈ ivRand, b < 256) :
    encryptFile P data password saltRand ivRand =
      { ciphertext := P.aeadEnc (deriveKey P password saltRand) ivRand data
        iv := bytesToHex ivRand
        salt := bytesToHex saltRand
        fileHash := hashFile P data } := by
  simp only [encryptFile, generateRandomHex,
    hexToBytes_bytesToHex saltRand hs, hexToBytes_bytesToHex ivRand hi]

/-- C1: encrypting any plaintext with any password and then decrypting the
resulting envelope's ciphertext with the envelope's hex `iv`, hex `salt`
and the same password returns exactly the plaintext.  The AES-GCM
round-trip property of the platform cipher enters as the hypothesis
`hgcm` at the derived key and IV. -/
theorem encryptFile_decryptFile_round_trip {K : Type} (P : Primitives K)
    (data : List Nat) (password : String) (saltRand ivRand : List Nat)
    (hs : ∀ b ∈ saltRand, b < 256) (hi : ∀ b ∈ ivRand, b < 256)
    (hgcm : P.aeadDec (deriveKey P password saltRand) ivRand
      (P.aeadEnc (deriveKey P password saltRand) ivRand data) = some data) :
    decryptFile P (encryptFile P data password saltRand ivRand).ciphertext
      (encryptFile P data password saltRand ivRand).iv
      (encryptFile P data password saltRand ivRand).salt password
      = some data := by
  rw [encryptFile_eq P data password saltRand ivRand hs hi]
  simpa [decryptFile, hexToBytes_bytesToHex saltRand hs,
    hexToBytes_bytesToHex ivRand hi] using hgcm

/-- Concrete CSPRNG draw for the witnesses: 16 salt bytes. -/
def witSaltR : List Nat := [0, 1, 2, 3, 4, 5, 6, 7, 8, 9, 10, 11, 12, 13, 14, 15]

/-- Concrete CSPRNG draw for the witnesses: 12 IV bytes. -/
def witIvR : List Nat := [255, 1, 2, 3, 4, 5, 6, 7, 8, 9, 10, 11]

theorem encryptFile_decryptFile_round_trip_witness :
    decryptFile toyP (encryptFile toyP [104, 105] "pw" witSaltR witIvR).ciphertext
      (encryptFile toyP [104, 105] "pw" witSaltR witIvR).iv
      (encryptFile toyP [104, 105] "pw" witSaltR witIvR).salt "pw"
      = some [104, 105] :=
  encryptFile_decryptFile_round_trip toyP [104, 105] "pw" witSaltR witIvR
    (by decide) (by decide) (by decide)

/-- C2: when the authentication tag does not verify, `decryptFile` fails
and returns no plaintext, partial or otherwise: in particular for a
ciphertext with any single bit flipped and for a different password.
That AES-GCM's tag check rejects the flipped ciphertext, and rejects the
genuine ciphertext under the key derived from the other password, is the
platform property stated by the spec; it enters as the hypotheses `hflip`
and `hwrong` at the derived keys and IV, and the theorem shows
`decryptFile` reconstructs exactly those keys and that IV from the
envelope's hex fields and propagates the failure as `none`. -/
theorem decryptFile_tamper_wrong_password_reject {K : Type}
    (P : Primitives K) (data : List Nat) (password wrongPassword : String)
    (saltRand ivRand : List Nat) (i k : Nat)
    (hs : ∀ b ∈ saltRand, b < 256) (hi : ∀ b ∈ ivRand, b < 256)
    (hflip : P.aeadDec (deriveKey P password saltRand) ivRand
      (flipBitAt i k (P.aeadEnc (deriveKey P password saltRand) ivRand data))
      = none)
    (hwrong : P.aeadDec (deriveKey P wrongPassword saltRand) ivRand
      (P.aeadEnc (deriveKey P password saltRand) ivRand data) = none) :
    decryptFile P
      (flipBitAt i k (encryptFile P data password saltRand ivRand).ciphertext)
      (encryptFile P data password saltRand ivRand).iv
      (encryptFile P data password saltRand ivRand).salt password = none ∧
    decryptFile P (encryptFile P data password saltRand ivRand).ciphertext
      (encryptFile P data password saltRand ivRand).iv
      (encryptFile P data password saltRand ivRand).salt wrongPassword
      = none := by
  rw [encryptFile_eq P data password saltRand ivRand hs hi]
  constructor
  · simpa [decryptFile, hexToBytes_bytesToHex saltRand hs,
      hexToBytes_bytesToHex ivRand hi] using hflip
  · simpa [decryptFile, hexToBytes_bytesToHex saltRand hs,
      hexToBytes_bytesToHex ivRand hi] using hwrong

theorem decryptFile_tamper_wrong_password_reject_witness :
    decryptFile toyP
      (flipBitAt 0 3 (encryptFile toyP [104, 105] "pw" witSaltR witIvR).ciphertext)
      (encryptFile toyP [104, 105] "pw" witSaltR witIvR).iv
      (encryptFile toyP [104, 105] "pw" witSaltR witIvR).salt "pw" = none ∧
    decryptFile toyP (encryptFile toyP [104, 105] "pw" witSaltR witIvR).ciphertext
      (encryptFile toyP [104, 105] "pw" witSaltR witIvR).iv
      (encryptFile toyP [104, 105] "pw" witSaltR witIvR).salt "wrongpass"
      = none :=
  decryptFile_tamper_wrong_password_reject toyP [104, 105] "pw" "wrongpass"
    witSaltR witIvR 0 3 (by decide) (by decide) (by decide) (by decide)

/-- C3: the authentication salt is the SHA-256 digest of the lower-cased,
trimmed email truncated to its first 16 bytes, and the registration
handler, the login handler and the download/decrypt flow all compute the
same value for the same normalized email (the handlers hash the
`.trim()`-med form input; `performDecrypt` hashes the session email, which
is that trimmed input). -/
theorem authSalt_deterministic {K : Type} (P : Primitives K)
    (email password : String) :
    registerAuthSalt P email = loginAuthSalt P email ∧
    decryptAuthSalt P (jsTrim email) = registerAuthSalt P email ∧
    (registerFlowSession P email password).email = jsTrim email ∧
    registerAuthSalt P email =
      (P.sha256 (stringToBytes (jsNormalizeEmail (jsTrim email)))).take 16 :=
  ⟨rfl, rfl, rfl, rfl⟩

/-- C4: uploads encrypt with the session's stored password hash — the hex
PBKDF2 authentication token saved at registration or login — as the
`password` argument of `encryptFile`, and `performDecrypt` recomputes that
same hash from the entered password and the session email before passing
it to `decryptFile`; the raw password string is not the argument, it
enters only through `hashPassword`. -/
theorem upload_download_use_auth_token {K : Type} (P : Primitives K)
    (formEmail password enteredPassword serverSalt name : String)
    (data saltRand ivRand ct : List Nat) (meta : FileMetadata) :
    (handleFileUpload P (registerFlowSession P formEmail password) name data
        saltRand ivRand).1
      = encryptFile P data
          (hashPassword P password (registerAuthSalt P formEmail))
          saltRand ivRand ∧
    (handleFileUpload P (loginFlowSession P formEmail password serverSalt)
        name data saltRand ivRand).1
      = encryptFile P data
          (hashPassword P password (loginAuthSalt P formEmail))
          saltRand ivRand ∧
    performDecrypt P (jsTrim formEmail) enteredPassword meta ct
      = (match decryptFile P ct meta.iv meta.salt
            (hashPassword P enteredPassword
              (decryptAuthSalt P (jsTrim formEmail))) with
        | none => DecryptOutcome.authenticationFailure
        | some d =>
            if hashFile P d ≠ meta.file_hash then DecryptOutcome.integrityFailure
            else DecryptOutcome.success d) ∧
    hashPassword P enteredPassword (decryptAuthSalt P (jsTrim formEmail))
      = (registerFlowSession P formEmail enteredPassword).passwordHash :=
  ⟨rfl, rfl, rfl, rfl⟩

/-- A second IV draw differing from `witIvR` only in its last byte. -/
def witIvR2 : List Nat := [255, 1, 2, 3, 4, 5, 6, 7, 8, 9, 10, 12]

/-- C5 fails as stated: two calls whose supplied randomness differs need
not produce different `salt` — here the two 28-byte random inputs differ
(in the IV draw) yet the envelopes carry byte-identical salts. -/
theorem salt_iv_uniqueness_cex :
    (witSaltR, witIvR) ≠ (witSaltR, witIvR2) ∧
    (encryptFile toyP [1, 2, 3] "pw" witSaltR witIvR).salt
      = (encryptFile toyP [1, 2, 3] "pw" witSaltR witIvR2).salt := by
  constructor
  · decide
  · rfl

/-- C5 amended: each call to `encryptFile` takes a fresh 16-byte salt draw
and a fresh 12-byte IV draw from the CSPRNG and stores them (hex) in the
envelope; two calls whose salt draws differ produce different salts, two
calls whose IV draws differ produce different IVs, and the ciphertexts
differ whenever the AES-GCM outputs at the two derived keys and IVs
differ (overall randomness differing is not enough to make the salts
differ). -/
theorem salt_iv_uniqueness_amended {K : Type} (P : Primitives K)
    (data : List Nat) (password : String) (sr1 ir1 sr2 ir2 : List Nat)
    (hs1 : ∀ b ∈ sr1, b < 256) (hi1 : ∀ b ∈ ir1, b < 256)
    (hs2 : ∀ b ∈ sr2, b < 256) (hi2 : ∀ b ∈ ir2, b < 256) :
    (encryptFile P data password sr1 ir1).salt = bytesToHex sr1 ∧
    (encryptFile P data password sr1 ir1).iv = bytesToHex ir1 ∧
    (sr1 ≠ sr2 →
      (encryptFile P data password sr1 ir1).salt
        ≠ (encryptFile P data password sr2 ir2).salt) ∧
    (ir1 ≠ ir2 →
      (encryptFile P data password sr1 ir1).iv
        ≠ (encryptFile P data password sr2 ir2).iv) ∧
    (P.aeadEnc (deriveKey P password sr1) ir1 data
        ≠ P.aeadEnc (deriveKey P password sr2) ir2 data →
      (encryptFile P data password sr1 ir1).ciphertext
        ≠ (encryptFile P data password sr2 ir2).ciphertext) := by
  rw [encryptFile_eq P data password sr1 ir1 hs1 hi1,
    encryptFile_eq P data password sr2 ir2 hs2 hi2]
  refine ⟨rfl, rfl, ?_, ?_, fun h => h⟩
  · exact fun hsne h => hsne (bytesToHex_inj hs1 hs2 h)
  · exact fun hine h => hine (bytesToHex_inj hi1 hi2 h)

theorem salt_iv_uniqueness_amended_witness :
    (encryptFile toyP [1, 2] "pw" witSaltR witIvR).salt = bytesToHex witSaltR ∧
    (encryptFile toyP [1, 2] "pw" witSaltR witIvR).iv = bytesToHex witIvR ∧
    (witSaltR ≠ witSaltR →
      (encryptFile toyP [1, 2] "pw" witSaltR witIvR).salt
        ≠ (encryptFile toyP [1, 2] "pw" witSaltR witIvR2).salt) ∧
    (witIvR ≠ witIvR2 →
      (encryptFile toyP [1, 2] "pw" witSaltR witIvR).iv
        ≠ (encryptFile toyP [1, 2] "pw" witSaltR witIvR2).iv) ∧
    (toyP.aeadEnc (deriveKey toyP "pw" witSaltR) witIvR [1, 2]
        ≠ toyP.aeadEnc (deriveKey toyP "pw" witSaltR) witIvR2 [1, 2] →
      (encryptFile toyP [1, 2] "pw" witSaltR witIvR).ciphertext
        ≠ (encryptFile toyP [1, 2] "pw" witSaltR witIvR2).ciphertext) :=
  salt_iv_uniqueness_amended toyP [1, 2] "pw" witSaltR witIvR witSaltR witIvR2
    (by decide) (by decide) (by decide) (by decide)

/-- C6: after a successful `decryptFile`, `performDecrypt` recomputes the
SHA-256 of the plaintext; on mismatch with the stored `file_hash` it
signals the integrity failure, reported under a different modal title
than the wrong-password failure, and no plaintext is delivered; moreover
any successfully delivered plaintext hashes to the stored `file_hash`, so
a substituted envelope is never silently accepted. -/
theorem performDecrypt_integrity_check {K : Type} (P : Primitives K)
    (email password : String) (meta : FileMetadata) (ct plain : List Nat)
    (hdec : decryptFile P ct meta.iv meta.salt
      (hashPassword P password (decryptAuthSalt P email)) = some plain)
    (hmismatch : hashFile P plain ≠ meta.file_hash) :
    performDecrypt P email password meta ct
      = DecryptOutcome.integrityFailure ∧
    (∀ q, performDecrypt P email password meta ct ≠ DecryptOutcome.success q) ∧
    modalErrorTitle DecryptOutcome.integrityFailure
      ≠ modalErrorTitle DecryptOutcome.authenticationFailure ∧
    (∀ (meta2 : FileMetadata) (ct2 q : List Nat),
      performDecrypt P email password meta2 ct2 = DecryptOutcome.success q →
      hashFile P q = meta2.file_hash) := by
  have h1 : performDecrypt P email password meta ct
      = DecryptOutcome.integrityFailure := by
    simp only [performDecrypt, hdec, if_pos hmismatch]
  refine ⟨h1, fun q => by simp [h1], by simp [modalErrorTitle], ?_⟩
  intro meta2 ct2 q hq
  simp only [performDecrypt] at hq
  split at hq
  · exact absurd hq (by simp)
  · split at hq
    · exact absurd hq (by simp)
    · rename_i hh
      cases hq
      exact not_not.mp hh

/-- Concrete metadata for the integrity-check witness: a stored hash that
cannot match. -/
def witMeta : FileMetadata :=
  { original_name := "f.txt", original_size := 2, iv := "00", salt := "00",
    file_hash := "nomatch" }

/-- Concrete ciphertext whose decryption under the witness password
succeeds. -/
def witCt : List Nat :=
  toyP.aeadEnc
    (deriveKey toyP
      (hashPassword toyP "pw" (decryptAuthSalt toyP "u@example.com"))
      (hexToBytes "00"))
    (hexToBytes "00") [9, 9]

theorem performDecrypt_integrity_check_witness :
    performDecrypt toyP "u@example.com" "pw" witMeta witCt
      = DecryptOutcome.integrityFailure ∧
    (∀ q, performDecrypt toyP "u@example.com" "pw" witMeta witCt
      ≠ DecryptOutcome.success q) ∧
    modalErrorTitle DecryptOutcome.integrityFailure
      ≠ modalErrorTitle DecryptOutcome.authenticationFailure ∧
    (∀ (meta2 : FileMetadata) (ct2 q : List Nat),
      performDecrypt toyP "u@example.com" "pw" meta2 ct2
        = DecryptOutcome.success q →
      hashFile toyP q = meta2.file_hash) :=
  performDecrypt_integrity_check toyP "u@example.com" "pw" witMeta witCt [9, 9]
    (by decide) (by decide)

/-- Ciphertext for the C7 counterexample, valid under the garbled salt and
IV that the malformed hex strings decode to. -/
def c7Ct : List Nat :=
  toyP.aeadEnc (deriveKey toyP "pw" [0]) (List.replicate 12 0) [1, 2, 3]

/-- C7 fails as stated: with a malformed salt (`"xyz"`: odd length,
non-hex, decoding to the single byte 0) and a malformed IV (24 `z`
characters, decoding to twelve 0 bytes), the layer raises nothing — it
proceeds with derivation and decryption, here all the way to plaintext. -/
theorem no_invalid_input_cex :
    decryptFile toyP c7Ct "zzzzzzzzzzzzzzzzzzzzzzzz" "xyz" "pw"
      = some [1, 2, 3] := by
  decide

/-- C7 amended: the cryptographic layer performs no input validation —
for every salt and IV hex string, of any length and content, `hexToBytes`
silently coerces the input (yielding `length / 2` bytes) and `deriveKey`
and `decryptFile` proceed unconditionally with the derivation and
decryption; no `InvalidInput` failure is raised anywhere in the layer. -/
theorem crypto_layer_no_validation {K : Type} (P : Primitives K)
    (ct salt : List Nat) (ivHex saltHex password : String) :
    decryptFile P ct ivHex saltHex password
      = P.aeadDec (P.pbkdf2key password (hexToBytes saltHex) PBKDF2_ITERATIONS)
          (hexToBytes ivHex) ct ∧
    deriveKey P password salt = P.pbkdf2key password salt PBKDF2_ITERATIONS ∧
    (hexToBytes saltHex).length = saltHex.length / 2 :=
  ⟨rfl, rfl, hexToBytes_length saltHex⟩

/-- C8: the registration request carries exactly the trimmed email, the
hex PBKDF2 password hash and the hex auth salt, and the login request
exactly the trimmed email and the hex PBKDF2 password hash; the fields
other than `password_hash` do not depend on the password at all, so the
raw password reaches the payload only through the derivation. -/
theorem auth_requests_exact_fields {K : Type} (P : Primitives K)
    (formEmail password pw1 pw2 : String) :
    registerRequest P formEmail password =
      { email := jsTrim formEmail
        password_hash := bytesToHex (P.pbkdf2bits password
          (registerAuthSalt P formEmail) PBKDF2_ITERATIONS)
        salt := bytesToHex (registerAuthSalt P formEmail) } ∧
    loginRequest P formEmail password =
      { email := jsTrim formEmail
        password_hash := bytesToHex (P.pbkdf2bits password
          (loginAuthSalt P formEmail) PBKDF2_ITERATIONS) } ∧
    (registerRequest P formEmail pw1).email
      = (registerRequest P formEmail pw2).email ∧
    (registerRequest P formEmail pw1).salt
      = (registerRequest P formEmail pw2).salt ∧
    (loginRequest P formEmail pw1).email
      = (loginRequest P formEmail pw2).email :=
  ⟨rfl, rfl, rfl, rfl, rfl⟩

/-- C9 fails as stated: the two-character group `"1z"` is not valid
hexadecimal, yet `hexToBytes` coerces it to the byte 1 (the value of the
parseable prefix `"1"`), not to the byte 0. -/
theorem hexToBytes_coercion_cex :
    hexToBytes "1z" = [1] ∧ hexToBytes "1z" ≠ [0] := by
  constructor
  · rfl
  · decide

/-- C9 amended: `hexToBytes` is total and performs no validation — every
input string, including odd lengths and non-hex characters, yields
`length / 2` bytes below 256 without an error; each two-character group is
read with JavaScript `parseInt(_, 16)` semantics reduced modulo 256: a
group whose first character is a hex digit (and that is not of the form
`0x`) contributes the value of its parseable prefix, and a group with no
parseable prefix — no whitespace, sign or hex digit to start it — is
coerced to the byte 0; malformed hex is thus silently garbled, never
rejected. -/
theorem hexToBytes_total_parseInt_semantics (s : String) (c d : Char)
    (v : Nat) (hc : hexDigitVal? c = some v) (hd : hexDigitVal? d = none)
    (hdws : isJsWs d = false) (hdm : d ≠ '-') (hdp : d ≠ '+')
    (hx : ¬(c = '0' ∧ (d = 'x' ∨ d = 'X'))) :
    (hexToBytes s).length = s.length / 2 ∧
    (∀ b ∈ hexToBytes s, b < 256) ∧
    hexToBytes (String.mk [c, d]) = [v] ∧
    hexToBytes (String.mk [d, c]) = [0] := by
  have hv16 : v < 16 := by
    simp only [hexDigitVal?] at hc
    split at hc
    · cases hc; omega
    · split at hc
      · cases hc; omega
      · split at hc
        · cases hc; omega
        · cases hc
  have hws1 := hexDigit_not_ws hc
  have hsg1 := hexDigit_not_sign hc
  have hd0 : d ≠ '0' := by
    rintro rfl
    simp [hexDigitVal?] at hd
  refine ⟨hexToBytes_length s, fun b hb => hexToBytesAux_lt s.data b hb, ?_, ?_⟩
  · show hexToBytesAux [c, d] = [v]
    rw [hexToBytesAux]
    have hp : parseInt16 [c, d] = some ((v : Nat) : Int) := by
      simp only [parseInt16, skipJsWs, hws1, if_false, Bool.false_eq_true]
      simp only [parseSignJs, if_neg hsg1.1, if_neg hsg1.2]
      simp only [strip0xJs, if_neg hx]
      simp only [hexDigitsRun, hc, hd]
      norm_num
    rw [hp, toUint8_some_small v (by omega)]
    rfl
  · show hexToBytesAux [d, c] = [0]
    rw [hexToBytesAux]
    have hp : parseInt16 [d, c] = none := by
      simp only [parseInt16, skipJsWs, hdws, if_false, Bool.false_eq_true]
      simp only [parseSignJs, if_neg hdm, if_neg hdp]
      have hx2 : ¬(d = '0' ∧ (c = 'x' ∨ c = 'X')) := fun h => hd0 h.1
      simp only [strip0xJs, if_neg hx2]
      simp only [hexDigitsRun, hd]
      norm_num
    rw [hp]
    rfl

theorem hexToBytes_total_parseInt_semantics_witness :
    (hexToBytes "1z1").length = "1z1".length / 2 ∧
    (∀ b ∈ hexToBytes "1z1", b < 256) ∧
    hexToBytes (String.mk ['1', 'z']) = [1] ∧
    hexToBytes (String.mk ['z', '1']) = [0] :=
  hexToBytes_total_parseInt_semantics "1z1" '1' 'z' 1 (by decide) (by decide)
    (by decide) (by decide) (by decide) (by decide)

/-- C10: the envelope's ciphertext is the plaintext length plus the
16-byte appended AES-GCM authentication tag (the tag-appending behaviour
of the platform cipher enters as the hypothesis `htag` at the derived key
and IV), and an `Envelope` consists of exactly the four fields
`ciphertext`, `iv`, `salt` and `fileHash` — there is no separate tag
field. -/
theorem ciphertext_length_tag_appended {K : Type} (P : Primitives K)
    (data : List Nat) (password : String) (saltRand ivRand : List Nat)
    (hs : ∀ b ∈ saltRand, b < 256) (hi : ∀ b ∈ ivRand, b < 256)
    (htag : (P.aeadEnc (deriveKey P password saltRand) ivRand data).length
      = data.length + 16) :
    (encryptFile P data password saltRand ivRand).ciphertext.length
      = data.length + 16 ∧
    (∀ e : Envelope, e = ⟨e.ciphertext, e.iv, e.salt, e.fileHash⟩) := by
  rw [encryptFile_eq P data password saltRand ivRand hs hi]
  exact ⟨htag, fun e => rfl⟩

theorem ciphertext_length_tag_appended_witness :
    (encryptFile toyP [1, 2, 3] "pw" witSaltR witIvR).ciphertext.length
      = [1, 2, 3].length + 16 ∧
    (∀ e : Envelope, e = ⟨e.ciphertext, e.iv, e.salt, e.fileHash⟩) :=
  ciphertext_length_tag_appended toyP [1, 2, 3] "pw" witSaltR witIvR
    (by decide) (by decide) (by decide)

end SCS
